import Mathlib

/-!
Shallow embedding of the log collection and deduplication engine of
`src/collector.ts` (codex-wrapped).  The JSON payloads of the line-delimited
session logs are modelled by dedicated record types carrying exactly the
fields the collector reads; JavaScript numbers are modelled by `Int` (the
token counters are integers; `NaN`/`Infinity` is the `nonfinite` case),
timestamps by `Int` epoch milliseconds, and JavaScript `Map`/`Set` objects by
insertion-ordered association lists.  Each Lean definition is named after the
TypeScript function it translates.
-/

/-- A JSON value in a position where the collector only cares whether it is a
string (`asNonEmptyString`): either a string or some other value. -/
inductive JScalar where
  | str (s : String)
  | other
deriving DecidableEq, Repr

/-- A JSON value in a numeric position (`ensureNumber`): a finite number,
a non-finite number (NaN / Infinity), or a non-number value. -/
inductive JNumVal where
  | num (n : Int)
  | nonfinite
  | other
deriving DecidableEq, Repr

/-- Character class used by JavaScript `String.prototype.trim`. -/
def isJsSpace (c : Char) : Bool :=
  c = ' ' || c = '\t' || c = '\n' || c = '\r'

/-- Executable model of JavaScript `String.prototype.trim` (strip leading and
trailing whitespace). -/
def trimString (s : String) : String :=
  ⟨((s.data.dropWhile isJsSpace).reverse.dropWhile isJsSpace).reverse⟩

/-- Translation of `asNonEmptyString`: a trimmed non-empty string, else none. -/
def asNonEmptyString : Option JScalar → Option String
  | some (.str s) => if trimString s = "" then none else some (trimString s)
  | _ => none

/-- Translation of `ensureNumber`: finite numbers pass through, everything
else (missing, null, non-number, non-finite) coerces to 0. -/
def ensureNumber : Option JNumVal → Int
  | some (.num n) => n
  | _ => 0

/-- The raw usage record as found on a log line (`last_token_usage` or
`total_token_usage`), before normalization; every field may be absent or junk. -/
structure RawUsageRecord where
  input_tokens : Option JNumVal
  cached_input_tokens : Option JNumVal
  cache_read_input_tokens : Option JNumVal
  output_tokens : Option JNumVal
  reasoning_output_tokens : Option JNumVal
  total_tokens : Option JNumVal
deriving DecidableEq, Repr

/-- Translation of the `RawUsage` type: the five counters after coercion. -/
structure RawUsage where
  input_tokens : Int
  cached_input_tokens : Int
  output_tokens : Int
  reasoning_output_tokens : Int
  total_tokens : Int
deriving DecidableEq, Repr

/-- Translation of `normalizeRawUsage`.  `none` input models a value that is
null or not an object.  The cached counter falls back from
`cached_input_tokens` to `cache_read_input_tokens`; the total is recomputed as
input + output whenever the reported total is not positive. -/
def normalizeRawUsage : Option RawUsageRecord → Option RawUsage
  | none => none
  | some r =>
    let input := ensureNumber r.input_tokens
    let cached := ensureNumber (r.cached_input_tokens <|> r.cache_read_input_tokens)
    let output := ensureNumber r.output_tokens
    let reasoning := ensureNumber r.reasoning_output_tokens
    let total := ensureNumber r.total_tokens
    some { input_tokens := input
           cached_input_tokens := cached
           output_tokens := output
           reasoning_output_tokens := reasoning
           total_tokens := if total > 0 then total else input + output }

/-- Translation of `subtractRawUsage`: per-field `max (current - previous) 0`
with a missing previous treated as all zeroes. -/
def subtractRawUsage (current : RawUsage) (previous : Option RawUsage) : RawUsage :=
  { input_tokens := max (current.input_tokens - ((previous.map RawUsage.input_tokens).getD 0)) 0
    cached_input_tokens := max (current.cached_input_tokens - ((previous.map RawUsage.cached_input_tokens).getD 0)) 0
    output_tokens := max (current.output_tokens - ((previous.map RawUsage.output_tokens).getD 0)) 0
    reasoning_output_tokens := max (current.reasoning_output_tokens - ((previous.map RawUsage.reasoning_output_tokens).getD 0)) 0
    total_tokens := max (current.total_tokens - ((previous.map RawUsage.total_tokens).getD 0)) 0 }

/-- The canonical per-event increment (the anonymous return type of
`convertToDelta`). -/
structure UsageDelta where
  inputTokens : Int
  cachedInputTokens : Int
  outputTokens : Int
  reasoningOutputTokens : Int
  totalTokens : Int
deriving DecidableEq, Repr

/-- Translation of `convertToDelta`: total defaults to input + output when the
raw total is not positive, and the cached counter is clamped to the input
counter. -/
def convertToDelta (raw : RawUsage) : UsageDelta :=
  { inputTokens := raw.input_tokens
    cachedInputTokens := min raw.cached_input_tokens raw.input_tokens
    outputTokens := raw.output_tokens
    reasoningOutputTokens := raw.reasoning_output_tokens
    totalTokens := if raw.total_tokens > 0 then raw.total_tokens else raw.input_tokens + raw.output_tokens }

/-- Translation of the `CodexUsageEvent` interface. -/
structure CodexUsageEvent where
  timestamp : Int
  model : String
  inputTokens : Int
  cachedInputTokens : Int
  outputTokens : Int
  reasoningOutputTokens : Int
  totalTokens : Int
deriving DecidableEq, Repr

/-- The `metadata` sub-object, of which only `model` is read. -/
structure MetaObj where
  model : Option JScalar
deriving DecidableEq, Repr

/-- The `payload.info` sub-object of a `token_count` event. -/
structure InfoObj where
  model : Option JScalar
  model_name : Option JScalar
  metadata : Option MetaObj
  last_token_usage : Option RawUsageRecord
  total_token_usage : Option RawUsageRecord
deriving DecidableEq, Repr

/-- A payload object as consumed by `extractModel` and the `token_count`
branch.  `none` in a field models an absent / null / non-object value. -/
structure TCPayload where
  info : Option InfoObj
  model : Option JScalar
  metadata : Option MetaObj
deriving DecidableEq, Repr

/-- Translation of `extractModel`: prefer `info.model`, then
`info.model_name`, then `info.metadata.model`, then top-level `model`, then
`metadata.model`; first non-empty string wins.  `none` input models a payload
that is null or not an object. -/
def extractModel : Option TCPayload → Option String
  | none => none
  | some p =>
    let fromInfo :=
      match p.info with
      | some info =>
        match asNonEmptyString info.model with
        | some m => some m
        | none =>
          match asNonEmptyString info.model_name with
          | some m => some m
          | none =>
            match info.metadata with
            | some md => asNonEmptyString md.model
            | none => none
      | none => none
    match fromInfo with
    | some m => some m
    | none =>
      match asNonEmptyString p.model with
      | some m => some m
      | none =>
        match p.metadata with
        | some md => asNonEmptyString md.model
        | none => none

/-- The `user_message` payload fields feeding `createUserMessageSignature`.
`text_elements`, `images`, `local_images` are `none` when not an array;
arrays of images are modelled by their length, which is all the signature
uses. -/
structure UserMsgPayload where
  message : Option JScalar
  text_elements : Option (List String)
  images : Option Nat
  local_images : Option Nat
deriving DecidableEq, Repr

/-- The content of the JSON string built by `createUserMessageSignature`;
`JSON.stringify` is injective on this shape, so the signature is modelled by
the record itself (only equality of signatures is ever used). -/
structure MsgSignature where
  message : String
  textElements : List String
  imageCount : Nat
  localImageCount : Nat
deriving DecidableEq, Repr

/-- Translation of `createUserMessageSignature`. -/
def createUserMessageSignature (p : UserMsgPayload) : MsgSignature :=
  { message := (asNonEmptyString p.message).getD ""
    textElements := p.text_elements.getD []
    imageCount := p.images.getD 0
    localImageCount := p.local_images.getD 0 }

/-- The content of the string built by `createTokenEventSignature`
(`[model, input, cached, output, reasoning, total].join("|")`); the join is
injective on this shape (the five numeric fields are the last five delimiter
separated tokens), so the signature is modelled by the record itself. -/
structure TokenSig where
  model : String
  inputTokens : Int
  cachedInputTokens : Int
  outputTokens : Int
  reasoningOutputTokens : Int
  totalTokens : Int
deriving DecidableEq, Repr

/-- Translation of `createTokenEventSignature`. -/
def createTokenEventSignature (e : CodexUsageEvent) : TokenSig :=
  { model := e.model
    inputTokens := e.inputTokens
    cachedInputTokens := e.cachedInputTokens
    outputTokens := e.outputTokens
    reasoningOutputTokens := e.reasoningOutputTokens
    totalTokens := e.totalTokens }

/-- Translation of the `SessionUserMessage` type. -/
structure SessionUserMessage where
  timestamp : Int
  signature : MsgSignature
deriving DecidableEq, Repr

/-- Translation of the `SessionDedupSignatures` type. -/
structure DedupSigs where
  messageSignatures : List MsgSignature
  tokenSignatures : List TokenSig
deriving DecidableEq, Repr

/-- Translation of the `SessionUsage` type (one parsed session log file). -/
structure SessionUsage where
  filePath : String
  cwd : Option String
  sessionId : Option String
  forkedFromId : Option String
  sessionDate : Option Int
  userMessages : List SessionUserMessage
  messageSignatures : List MsgSignature
  events : List CodexUsageEvent
  tokenSignatures : List TokenSig
deriving DecidableEq, Repr

/-- One parsed log line, as classified by the `entry.type` /
`payload.type` dispatch in `collectCodexUsageData`.  `otherEntry` covers
blank lines, unparseable lines and unrecognized record types, all of which
the collector skips. -/
inductive Entry where
  | sessionMeta (payloadTimestamp topTimestamp : Option Int) (cwd : Option String)
      (id forkedFrom : Option JScalar)
  | turnContext (payload : Option TCPayload)
  | userMessage (timestamp : Option Int) (payload : UserMsgPayload)
  | tokenCount (timestamp : Option Int) (payload : TCPayload)
  | otherEntry
deriving DecidableEq, Repr

/-- The `LEGACY_FALLBACK_MODEL` constant. -/
def LEGACY_FALLBACK_MODEL : String := "gpt-5"

/-- The `FORK_PREFIX_MIN_MATCH` constant. -/
def FORK_PREFIX_MIN_MATCH : Nat := 3

/-- JavaScript truthiness of an optional string (empty strings are falsy). -/
def nonEmptyOpt (o : Option String) : Option String :=
  match o with
  | some s => if s = "" then none else some s
  | none => none

/-- The per-file mutable locals of the parsing loop of
`collectCodexUsageData` (lines 108-117). -/
structure ParseState where
  previousTotals : Option RawUsage
  currentModel : Option String
  currentModelIsFallback : Bool
  sessionDate : Option Int
  sessionCwd : Option String
  sessionId : Option String
  forkedFromId : Option String
  userMessages : List SessionUserMessage
  sessionEvents : List CodexUsageEvent
deriving DecidableEq, Repr

/-- The initial per-file parse state. -/
def initParseState : ParseState :=
  { previousTotals := none
    currentModel := none
    currentModelIsFallback := false
    sessionDate := none
    sessionCwd := none
    sessionId := none
    forkedFromId := none
    userMessages := []
    sessionEvents := [] }

/-- The value bound to `raw` in the `token_count` branch: the normalized
direct delta if present, else the cumulative totals minus the previous
totals. -/
def tokenRaw (payload : TCPayload) (previousTotals : Option RawUsage) : Option RawUsage :=
  match normalizeRawUsage (payload.info.bind InfoObj.last_token_usage) with
  | some r => some r
  | none =>
    match normalizeRawUsage (payload.info.bind InfoObj.total_token_usage) with
    | some t => some (subtractRawUsage t previousTotals)
    | none => none

/-- Builds the event pushed onto `sessionEvents` (lines 236-244). -/
def mkEvent (ts : Int) (model : String) (delta : UsageDelta) : CodexUsageEvent :=
  { timestamp := ts
    model := model
    inputTokens := delta.inputTokens
    cachedInputTokens := delta.cachedInputTokens
    outputTokens := delta.outputTokens
    reasoningOutputTokens := delta.reasoningOutputTokens
    totalTokens := delta.totalTokens }

/-- The `token_count` branch of the parsing loop (lines 186-249): skip when
the timestamp is missing; update `previousTotals` whenever cumulative totals
are present; drop all-zero deltas; resolve the model (payload, tracked
current model, legacy fallback, in that order) and push the event. -/
def processTokenCount (s : ParseState) (tsOpt : Option Int) (payload : TCPayload) : ParseState :=
  match tsOpt with
  | none => s
  | some ts =>
    let totalUsage := normalizeRawUsage (payload.info.bind InfoObj.total_token_usage)
    let s1 : ParseState :=
      { s with previousTotals := match totalUsage with | some t => some t | none => s.previousTotals }
    match tokenRaw payload s.previousTotals with
    | none => s1
    | some r =>
      let delta := convertToDelta r
      if delta.inputTokens = 0 ∧ delta.cachedInputTokens = 0 ∧ delta.outputTokens = 0 ∧
          delta.reasoningOutputTokens = 0 then
        s1
      else
        match extractModel (some payload) with
        | some m =>
          { s1 with currentModel := some m
                    currentModelIsFallback := false
                    sessionEvents := s1.sessionEvents ++ [mkEvent ts m delta] }
        | none =>
          match s.currentModel with
          | some c => { s1 with sessionEvents := s1.sessionEvents ++ [mkEvent ts c delta] }
          | none =>
            { s1 with currentModel := some LEGACY_FALLBACK_MODEL
                      currentModelIsFallback := true
                      sessionEvents := s1.sessionEvents ++ [mkEvent ts LEGACY_FALLBACK_MODEL delta] }

/-- The `session_meta` branch (lines 136-162): keep the minimum timestamp,
the latest truthy working directory, and the first non-empty id and
forked-from id. -/
def processSessionMeta (s : ParseState) (pts tts : Option Int) (cwd : Option String)
    (id forked : Option JScalar) : ParseState :=
  let sessionTimestamp := match pts with | some t => some t | none => tts
  let s :=
    match sessionTimestamp with
    | some t =>
      { s with sessionDate :=
          match s.sessionDate with
          | none => some t
          | some d => if t < d then some t else some d }
    | none => s
  let s := match nonEmptyOpt cwd with | some c => { s with sessionCwd := some c } | none => s
  let s :=
    match s.sessionId with
    | some _ => s
    | none =>
      match asNonEmptyString id with
      | some i => { s with sessionId := some i }
      | none => s
  match s.forkedFromId with
  | some _ => s
  | none =>
    match asNonEmptyString forked with
    | some f => { s with forkedFromId := some f }
    | none => s

/-- One iteration of the per-line parsing loop of `collectCodexUsageData`. -/
def processEntry (s : ParseState) (e : Entry) : ParseState :=
  match e with
  | .sessionMeta pts tts cwd id forked => processSessionMeta s pts tts cwd id forked
  | .turnContext payload =>
    match extractModel payload with
    | some m => { s with currentModel := some m, currentModelIsFallback := false }
    | none => s
  | .userMessage tsOpt payload =>
    match tsOpt with
    | some ts =>
      { s with userMessages :=
          s.userMessages ++ [{ timestamp := ts, signature := createUserMessageSignature payload }] }
    | none => s
  | .tokenCount tsOpt payload => processTokenCount s tsOpt payload
  | .otherEntry => s

/-- Parsing one session log file (the per-file loop plus the
`sessions.push` record built at lines 256-266). -/
def processFile (filePath : String) (entries : List Entry) : SessionUsage :=
  let st := entries.foldl processEntry initParseState
  { filePath := filePath
    cwd := st.sessionCwd
    sessionId := st.sessionId
    forkedFromId := st.forkedFromId
    sessionDate := st.sessionDate
    userMessages := st.userMessages
    messageSignatures := st.userMessages.map SessionUserMessage.signature
    events := st.sessionEvents
    tokenSignatures := st.sessionEvents.map createTokenEventSignature }

/-- Translation of `commonPrefixLength`. -/
def commonPrefixLength {α : Type} [DecidableEq α] : List α → List α → Nat
  | x :: xs, y :: ys => if x = y then commonPrefixLength xs ys + 1 else 0
  | _, _ => 0

/-- The scanning loop of `findLargestPrefixOverlap`, including the
short-circuit return once a full-length match is found. -/
def findLargestOverlapGo {α : Type} [DecidableEq α] (seq : List α) :
    Nat → List (List α) → Nat
  | best, [] => best
  | best, c :: cs =>
    if c = [] then findLargestOverlapGo seq best cs
    else
      let overlap := commonPrefixLength seq c
      if overlap > best then
        if overlap = seq.length then overlap else findLargestOverlapGo seq overlap cs
      else findLargestOverlapGo seq best cs

/-- Translation of `findLargestPrefixOverlap`. -/
def findLargestPrefixOverlap {α : Type} [DecidableEq α]
    (seq : List α) (candidateSequences : List (List α)) : Nat :=
  if seq = [] ∨ candidateSequences = [] then 0
  else findLargestOverlapGo seq 0 candidateSequences

/-- Translation of `shouldApplyForkDedup`. -/
def shouldApplyForkDedup (overlap sequenceLength : Nat) : Bool :=
  if overlap < FORK_PREFIX_MIN_MATCH then false
  else if sequenceLength ≤ 4 then overlap == sequenceLength
  else true

/-- Strict lexicographic comparison of character lists. -/
def charListLt : List Char → List Char → Bool
  | _, [] => false
  | [], _ :: _ => true
  | a :: as, b :: bs => if a < b then true else if b < a then false else charListLt as bs

/-- Strict lexicographic comparison of strings by code points. -/
def stringLt (a b : String) : Bool :=
  charListLt a.data b.data

/-- Model of `a.localeCompare(b)` as code-point lexicographic comparison. -/
def compareStrings (a b : String) : Int :=
  if stringLt a b then -1 else if a = b then 0 else 1

/-- Translation of `compareSessionsByDate`. -/
def compareSessionsByDate (a b : SessionUsage) : Int :=
  match a.sessionDate, b.sessionDate with
  | some ta, some tb =>
    if ta ≠ tb then ta - tb else compareStrings a.filePath b.filePath
  | some _, none => -1
  | none, some _ => 1
  | none, none => compareStrings a.filePath b.filePath

/-- The sort order induced by the `compareSessionsByDate` comparator. -/
def sessionLE (a b : SessionUsage) : Prop :=
  compareSessionsByDate a b ≤ 0

instance : DecidableRel sessionLE := fun a b =>
  inferInstanceAs (Decidable (compareSessionsByDate a b ≤ 0))

/-- The sort order induced by the event timestamp comparator at line 339. -/
def eventLE (a b : CodexUsageEvent) : Prop :=
  a.timestamp ≤ b.timestamp

instance : DecidableRel eventLE := fun a b =>
  inferInstanceAs (Decidable (a.timestamp ≤ b.timestamp))

/-- The `sessions.sort(compareSessionsByDate)` call, modelled by stable
insertion sort with the comparator's order (modern JS engines sort stably). -/
def sortSessions (l : List SessionUsage) : List SessionUsage :=
  List.insertionSort sessionLE l

/-- The final `events.sort` by timestamp (line 339). -/
def sortEvents (l : List CodexUsageEvent) : List CodexUsageEvent :=
  List.insertionSort eventLE l

/-- Lookup in an insertion-ordered association list (JS `Map.get`). -/
def lookupAssoc {α : Type} : List (String × α) → String → Option α
  | [], _ => none
  | (k', v) :: rest, k => if k' = k then some v else lookupAssoc rest k

/-- Update in an insertion-ordered association list (JS `Map.set`). -/
def setAssoc {α : Type} : List (String × α) → String → α → List (String × α)
  | [], k, v => [(k, v)]
  | (k', v') :: rest, k, v =>
    if k' = k then (k, v) :: rest else (k', v') :: setAssoc rest k v

/-- Increment of a day bucket (`dailyActivity.set(key, get + 1)`). -/
def bumpDaily : List (Int × Nat) → Int → List (Int × Nat)
  | [], k => [(k, 1)]
  | (k', v) :: rest, k =>
    if k' = k then (k', v + 1) :: rest else (k', v) :: bumpDaily rest k

/-- Insertion into the `projects` set (JS `Set.add`). -/
def addProject (ps : List String) (p : String) : List String :=
  if p ∈ ps then ps else ps ++ [p]

/-- Model of `formatDateKey` composed with `new Date(ms)`: the calendar-day
bucket of a timestamp.  The source renders a local-time `YYYY-MM-DD` string;
the claims depend only on the key being a function of the timestamp, so it is
modelled as the UTC day index. -/
def formatDateKey (t : Int) : Int :=
  t.fdiv 86400000

/-- The accumulator of the merging loop of `collectCodexUsageData`
(lines 269-275) together with the two dedup maps. -/
structure CollectState where
  events : List CodexUsageEvent
  dailyActivity : List (Int × Nat)
  totalMessages : Nat
  projects : List String
  earliestSessionDate : Option Int
  priorSessionsByCwd : List (String × List DedupSigs)
  sessionsById : List (String × DedupSigs)
deriving DecidableEq, Repr

/-- The empty initial collect state. -/
def initCollectState : CollectState :=
  { events := []
    dailyActivity := []
    totalMessages := 0
    projects := []
    earliestSessionDate := none
    priorSessionsByCwd := []
    sessionsById := [] }

/-- The parent lookup at line 290:
`session.forkedFromId ? sessionsById.get(session.forkedFromId) : undefined`. -/
def parentLookup (st : CollectState) (s : SessionUsage) : Option DedupSigs :=
  match nonEmptyOpt s.forkedFromId with
  | some fid => lookupAssoc st.sessionsById fid
  | none => none

/-- The outcome of the dedup strategy selection (lines 288-321): the two
start indices and the updated per-directory candidate map. -/
structure DedupDecision where
  messageStartIndex : Nat
  tokenStartIndex : Nat
  priorSessionsByCwd : List (String × List DedupSigs)
deriving Repr

/-- Translation of the strategy selection (lines 288-321): explicit parent
first, else the same-directory heuristic (which also appends the session to
the directory's candidate list), else no trimming. -/
def dedupDecision (st : CollectState) (s : SessionUsage) : DedupDecision :=
  match parentLookup st s with
  | some parent =>
    { messageStartIndex := commonPrefixLength s.messageSignatures parent.messageSignatures
      tokenStartIndex := commonPrefixLength s.tokenSignatures parent.tokenSignatures
      priorSessionsByCwd := st.priorSessionsByCwd }
  | none =>
    match nonEmptyOpt s.cwd with
    | some c =>
      let previousSessions := (lookupAssoc st.priorSessionsByCwd c).getD []
      let messageOverlap :=
        findLargestPrefixOverlap s.messageSignatures (previousSessions.map DedupSigs.messageSignatures)
      let tokenOverlap :=
        findLargestPrefixOverlap s.tokenSignatures (previousSessions.map DedupSigs.tokenSignatures)
      { messageStartIndex :=
          if shouldApplyForkDedup messageOverlap s.messageSignatures.length then messageOverlap else 0
        tokenStartIndex :=
          if shouldApplyForkDedup tokenOverlap s.tokenSignatures.length then tokenOverlap else 0
        priorSessionsByCwd :=
          setAssoc st.priorSessionsByCwd c
            (previousSessions ++
              [{ messageSignatures := s.messageSignatures, tokenSignatures := s.tokenSignatures }]) }
    | none =>
      { messageStartIndex := 0
        tokenStartIndex := 0
        priorSessionsByCwd := st.priorSessionsByCwd }

/-- One iteration of the merging loop of `collectCodexUsageData`
(lines 279-337). -/
def processSession (st : CollectState) (s : SessionUsage) : CollectState :=
  let retained := s.userMessages.drop (dedupDecision st s).messageStartIndex
  { events := st.events ++ s.events.drop (dedupDecision st s).tokenStartIndex
    dailyActivity := retained.foldl (fun d m => bumpDaily d (formatDateKey m.timestamp)) st.dailyActivity
    totalMessages := retained.foldl (fun t _ => t + 1) st.totalMessages
    projects :=
      match nonEmptyOpt s.cwd with
      | some c => addProject st.projects c
      | none => st.projects
    earliestSessionDate :=
      match s.sessionDate with
      | some d =>
        match st.earliestSessionDate with
        | none => some d
        | some e => if d < e then some d else some e
      | none => st.earliestSessionDate
    priorSessionsByCwd := (dedupDecision st s).priorSessionsByCwd
    sessionsById :=
      match nonEmptyOpt s.sessionId with
      | some i =>
        setAssoc st.sessionsById i
          { messageSignatures := s.messageSignatures, tokenSignatures := s.tokenSignatures }
      | none => st.sessionsById }

/-- Translation of the `CodexUsageData` interface. -/
structure CodexUsageData where
  events : List CodexUsageEvent
  dailyActivity : List (Int × Nat)
  totalMessages : Nat
  totalSessions : Nat
  projects : List String
  earliestSessionDate : Option Int
deriving Repr

/-- The merging loop: fold the sorted sessions through `processSession`. -/
def mergeSessions (sessions : List SessionUsage) : CollectState :=
  sessions.foldl processSession initCollectState

/-- The session-level part of `collectCodexUsageData`: sort the parsed
sessions chronologically, merge them, and sort the merged events by
timestamp. -/
def collectSessions (sessions : List SessionUsage) : CodexUsageData :=
  let st := mergeSessions (sortSessions sessions)
  { events := sortEvents st.events
    dailyActivity := st.dailyActivity
    totalMessages := st.totalMessages
    totalSessions := sessions.length
    projects := st.projects
    earliestSessionDate := st.earliestSessionDate }

/-- Translation of `collectCodexUsageData`: a collection run over the
discovered files, each given as its path and its parsed log lines. -/
def collectCodexUsageData (files : List (String × List Entry)) : CodexUsageData :=
  collectSessions (files.map (fun f => processFile f.1 f.2))

/-- The file-path tiebreak order of the spec: lexical order on the paths. -/
def filePathLE (a b : SessionUsage) : Prop :=
  stringLt a.filePath b.filePath = true ∨ a.filePath = b.filePath

/-- The session feed order as the spec words it: earliest session timestamp
ascending, sessions without a timestamp after all timestamped ones, file path
lexical order as the final tiebreak. -/
def sessionSpecOrder (a b : SessionUsage) : Prop :=
  match a.sessionDate, b.sessionDate with
  | some ta, some tb => ta < tb ∨ (ta = tb ∧ filePathLE a b)
  | some _, none => True
  | none, some _ => False
  | none, none => filePathLE a b

/-! ## Concrete example inputs used by witnesses and counterexamples -/

/-- A family of pairwise distinct message signatures. -/
def mkMsgSig (n : Nat) : MsgSignature :=
  { message := "", textElements := [], imageCount := n, localImageCount := 0 }

/-- A user message with a given timestamp and signature index. -/
def mkMsg (t : Int) (n : Nat) : SessionUserMessage :=
  { timestamp := t, signature := mkMsgSig n }

/-- Parent signature record for the explicit-fork example: messages m1 m2 m3. -/
def parC6 : DedupSigs :=
  { messageSignatures := [mkMsgSig 1, mkMsgSig 2, mkMsgSig 3], tokenSignatures := [] }

/-- State in which session id "a" has already been recorded. -/
def stC6 : CollectState :=
  { initCollectState with sessionsById := [("a", parC6)] }

/-- Child session declaring forked-from "a" with messages m1 m2 m3 m4. -/
def sessC6 : SessionUsage :=
  { filePath := "b"
    cwd := none
    sessionId := some "b"
    forkedFromId := some "a"
    sessionDate := none
    userMessages := [mkMsg 1 1, mkMsg 2 2, mkMsg 3 3, mkMsg 4 4]
    messageSignatures := [mkMsgSig 1, mkMsgSig 2, mkMsgSig 3, mkMsgSig 4]
    events := []
    tokenSignatures := [] }

/-- Prior same-directory session for the heuristic example (5 messages). -/
def priorC5 : DedupSigs :=
  { messageSignatures := [mkMsgSig 1, mkMsgSig 2, mkMsgSig 3, mkMsgSig 9, mkMsgSig 10]
    tokenSignatures := [] }

/-- State in which directory "d" has one prior candidate session. -/
def stC5 : CollectState :=
  { initCollectState with priorSessionsByCwd := [("d", [priorC5])] }

/-- Unrelated session in directory "d" sharing a 3-message leading prefix
with the prior session (total length 5). -/
def sessC5 : SessionUsage :=
  { filePath := "c"
    cwd := some "d"
    sessionId := none
    forkedFromId := none
    sessionDate := none
    userMessages := [mkMsg 1 1, mkMsg 2 2, mkMsg 3 3, mkMsg 4 5, mkMsg 5 6]
    messageSignatures := [mkMsgSig 1, mkMsgSig 2, mkMsgSig 3, mkMsgSig 5, mkMsgSig 6]
    events := []
    tokenSignatures := [] }

/-- Parent session "a" without a working directory. -/
def sessA3 : SessionUsage :=
  { filePath := "a"
    cwd := none
    sessionId := some "a"
    forkedFromId := none
    sessionDate := none
    userMessages := []
    messageSignatures := []
    events := []
    tokenSignatures := [] }

/-- Child session forked from "a" with working directory "d". -/
def sessB3 : SessionUsage :=
  { filePath := "b"
    cwd := some "d"
    sessionId := some "b"
    forkedFromId := some "a"
    sessionDate := none
    userMessages := [mkMsg 1 1]
    messageSignatures := [mkMsgSig 1]
    events := []
    tokenSignatures := [] }

/-- Whether an optional numeric log value is non-negative when it is an
actual finite number (missing and junk values are vacuously fine: they
coerce to 0). -/
def numNonneg (v : Option JNumVal) : Bool :=
  match v with
  | some (.num n) => decide (0 ≤ n)
  | _ => true

/-- All six numeric fields of a raw usage record are `numNonneg`. -/
def rawRecordNonneg (r : RawUsageRecord) : Bool :=
  numNonneg r.input_tokens && numNonneg r.cached_input_tokens
    && numNonneg r.cache_read_input_tokens && numNonneg r.output_tokens
    && numNonneg r.reasoning_output_tokens && numNonneg r.total_tokens

/-- A log entry whose usage records carry no negative counters. -/
def entryNonneg : Entry → Bool
  | .tokenCount _ p =>
    (match p.info.bind InfoObj.last_token_usage with
     | some r => rawRecordNonneg r
     | none => true)
    && (match p.info.bind InfoObj.total_token_usage with
        | some r => rawRecordNonneg r
        | none => true)
  | _ => true

/-- The per-event delta invariants of the spec data model. -/
def eventDeltaOK (e : CodexUsageEvent) : Prop :=
  0 ≤ e.inputTokens ∧ 0 ≤ e.cachedInputTokens ∧ 0 ≤ e.outputTokens
    ∧ 0 ≤ e.reasoningOutputTokens ∧ 0 ≤ e.totalTokens
    ∧ e.cachedInputTokens ≤ e.inputTokens
    ∧ (0 < e.totalTokens ∨ e.totalTokens = e.inputTokens + e.outputTokens)

/-- A raw usage record with only a total counter (5). -/
def rawRecC7 : RawUsageRecord :=
  { input_tokens := none
    cached_input_tokens := none
    cache_read_input_tokens := none
    output_tokens := none
    reasoning_output_tokens := none
    total_tokens := some (.num 5) }

/-- A token_count payload whose direct delta has all four components zero. -/
def payC7 : TCPayload :=
  { info := some
      { model := none
        model_name := none
        metadata := none
        last_token_usage := some rawRecC7
        total_token_usage := none }
    model := none
    metadata := none }

/-- The normalization of `rawRecC7`. -/
def rawC7 : RawUsage :=
  { input_tokens := 0
    cached_input_tokens := 0
    output_tokens := 0
    reasoning_output_tokens := 0
    total_tokens := 5 }

/-- A raw usage record reporting 5 input tokens. -/
def rawRecC9 : RawUsageRecord :=
  { input_tokens := some (.num 5)
    cached_input_tokens := none
    cache_read_input_tokens := none
    output_tokens := none
    reasoning_output_tokens := none
    total_tokens := none }

/-- A token_count payload carrying its own model "m1". -/
def payC9 : TCPayload :=
  { info := some
      { model := some (.str "m1")
        model_name := none
        metadata := none
        last_token_usage := some rawRecC9
        total_token_usage := none }
    model := none
    metadata := none }

/-- The normalization of `rawRecC9`. -/
def rawC9 : RawUsage :=
  { input_tokens := 5
    cached_input_tokens := 0
    output_tokens := 0
    reasoning_output_tokens := 0
    total_tokens := 5 }

/-- Previously seen cumulative totals: input 100, output 50. -/
def prevC4 : RawUsage :=
  { input_tokens := 100
    cached_input_tokens := 0
    output_tokens := 50
    reasoning_output_tokens := 0
    total_tokens := 150 }

/-- Parse state that has already seen the cumulative totals `prevC4`. -/
def stC4 : ParseState :=
  { initParseState with previousTotals := some prevC4 }

/-- Cumulative usage record: input 150, output 80. -/
def rawRecC4 : RawUsageRecord :=
  { input_tokens := some (.num 150)
    cached_input_tokens := none
    cache_read_input_tokens := none
    output_tokens := some (.num 80)
    reasoning_output_tokens := none
    total_tokens := none }

/-- A token_count payload with only cumulative totals. -/
def payC4 : TCPayload :=
  { info := some
      { model := none
        model_name := none
        metadata := none
        last_token_usage := none
        total_token_usage := some rawRecC4 }
    model := none
    metadata := none }

/-- The normalization of `rawRecC4`. -/
def rawC4t : RawUsage :=
  { input_tokens := 150
    cached_input_tokens := 0
    output_tokens := 80
    reasoning_output_tokens := 0
    total_tokens := 230 }

/-- Cumulative usage record with cached (20) exceeding input (10). -/
def rawRecC4x : RawUsageRecord :=
  { input_tokens := some (.num 10)
    cached_input_tokens := some (.num 20)
    cache_read_input_tokens := none
    output_tokens := none
    reasoning_output_tokens := none
    total_tokens := none }

/-- A token_count payload carrying `rawRecC4x` as cumulative totals. -/
def payC4x : TCPayload :=
  { info := some
      { model := none
        model_name := none
        metadata := none
        last_token_usage := none
        total_token_usage := some rawRecC4x }
    model := none
    metadata := none }

/-- A direct delta record with a negative input counter. -/
def rawRecC2x : RawUsageRecord :=
  { input_tokens := some (.num (-5))
    cached_input_tokens := none
    cache_read_input_tokens := none
    output_tokens := none
    reasoning_output_tokens := none
    total_tokens := none }

/-- A token_count payload whose direct delta reports -5 input tokens. -/
def payC2x : TCPayload :=
  { info := some
      { model := none
        model_name := none
        metadata := none
        last_token_usage := some rawRecC2x
        total_token_usage := none }
    model := none
    metadata := none }

/-- A well-formed direct delta record: input 5, cached 2, output 3. -/
def rawRecC2w : RawUsageRecord :=
  { input_tokens := some (.num 5)
    cached_input_tokens := some (.num 2)
    cache_read_input_tokens := none
    output_tokens := some (.num 3)
    reasoning_output_tokens := none
    total_tokens := some (.num 10) }

/-- A token_count payload carrying `rawRecC2w` as a direct delta. -/
def payC2w : TCPayload :=
  { info := some
      { model := none
        model_name := none
        metadata := none
        last_token_usage := some rawRecC2w
        total_token_usage := none }
    model := none
    metadata := none }

/-- A direct delta record: input 5, output 2. -/
def rawRecC1 : RawUsageRecord :=
  { input_tokens := some (.num 5)
    cached_input_tokens := none
    cache_read_input_tokens := none
    output_tokens := some (.num 2)
    reasoning_output_tokens := none
    total_tokens := none }

/-- A token_count payload carrying `rawRecC1` as a direct delta. -/
def payC1 : TCPayload :=
  { info := some
      { model := none
        model_name := none
        metadata := none
        last_token_usage := some rawRecC1
        total_token_usage := none }
    model := none
    metadata := none }

/-- The token signature of the event emitted for `payC1` (fallback model). -/
def sigC1 : TokenSig :=
  { model := "gpt-5"
    inputTokens := 5
    cachedInputTokens := 0
    outputTokens := 2
    reasoningOutputTokens := 0
    totalTokens := 7 }

/-- First usage event of the fork-pair example. -/
def evC1a : CodexUsageEvent :=
  { timestamp := 1
    model := "m"
    inputTokens := 1
    cachedInputTokens := 0
    outputTokens := 0
    reasoningOutputTokens := 0
    totalTokens := 1 }

/-- Second usage event of the fork-pair example. -/
def evC1b : CodexUsageEvent :=
  { timestamp := 6
    model := "m"
    inputTokens := 2
    cachedInputTokens := 0
    outputTokens := 0
    reasoningOutputTokens := 0
    totalTokens := 2 }

/-- Parent session of the fork-pair example. -/
def sessAC1 : SessionUsage :=
  { filePath := "a"
    cwd := none
    sessionId := some "a"
    forkedFromId := none
    sessionDate := some 0
    userMessages := [mkMsg 1 1]
    messageSignatures := [mkMsgSig 1]
    events := [evC1a]
    tokenSignatures := [createTokenEventSignature evC1a] }

/-- Child session of the fork-pair example: extends the parent by one message
and one event and declares forked-from "a". -/
def sessBC1 : SessionUsage :=
  { filePath := "b"
    cwd := none
    sessionId := some "b"
    forkedFromId := some "a"
    sessionDate := some 5
    userMessages := [mkMsg 1 1, mkMsg 2 2]
    messageSignatures := [mkMsgSig 1, mkMsgSig 2]
    events := [evC1a, evC1b]
    tokenSignatures := [createTokenEventSignature evC1a, createTokenEventSignature evC1b] }

/-- A session with a working directory and no fork relation. -/
def sessC3w : SessionUsage :=
  { filePath := "w"
    cwd := some "d"
    sessionId := some "w"
    forkedFromId := none
    sessionDate := none
    userMessages := []
    messageSignatures := [mkMsgSig 7]
    events := []
    tokenSignatures := [] }

/-! ## Order properties of the comparators -/

theorem charListLt_irrefl (l : List Char) : charListLt l l = false := by
  induction l with
  | nil => rfl
  | cons x xs ih => simp [charListLt, lt_irrefl, ih]

theorem charListLt_trans {a b c : List Char} (h1 : charListLt a b = true)
    (h2 : charListLt b c = true) : charListLt a c = true := by
  induction a generalizing b c with
  | nil =>
    cases c with
    | nil => cases b <;> simp [charListLt] at h2
    | cons z zs => rfl
  | cons x xs ih =>
    cases b with
    | nil => simp [charListLt] at h1
    | cons y ys =>
      cases c with
      | nil => simp [charListLt] at h2
      | cons z zs =>
        simp only [charListLt] at h1 h2 ⊢
        by_cases hxy : x < y
        · by_cases hyz : y < z
          · simp [lt_trans hxy hyz]
          · by_cases hzy : z < y
            · simp [hyz, hzy] at h2
            · have hyz' : y = z := le_antisymm (not_lt.mp hzy) (not_lt.mp hyz)
              subst hyz'
              simp [hxy]
        · by_cases hyx : y < x
          · simp [hxy, hyx] at h1
          · have hxy' : x = y := le_antisymm (not_lt.mp hyx) (not_lt.mp hxy)
            subst hxy'
            simp [hxy, hyx] at h1
            by_cases hxz : x < z
            · simp [hxz]
            · by_cases hzx : z < x
              · simp [hxz, hzx] at h2
              · simp [hxz, hzx] at h2 ⊢
                exact ih h1 h2

theorem charListLt_connex {a b : List Char} (h1 : charListLt a b = false)
    (h2 : charListLt b a = false) : a = b := by
  induction a generalizing b with
  | nil =>
    cases b with
    | nil => rfl
    | cons y ys => simp [charListLt] at h1
  | cons x xs ih =>
    cases b with
    | nil => simp [charListLt] at h2
    | cons y ys =>
      simp only [charListLt] at h1 h2
      by_cases hxy : x < y
      · simp [hxy] at h1
      · by_cases hyx : y < x
        · simp [hxy, hyx] at h2
        · have hxy' : x = y := le_antisymm (not_lt.mp hyx) (not_lt.mp hxy)
          simp [hxy, hyx] at h1 h2
          rw [hxy', ih h1 h2]

theorem stringLt_trans {a b c : String} (h1 : stringLt a b = true)
    (h2 : stringLt b c = true) : stringLt a c = true :=
  charListLt_trans h1 h2

theorem stringLt_connex {a b : String} (h1 : stringLt a b = false)
    (h2 : stringLt b a = false) : a = b := by
  cases a
  cases b
  exact congrArg String.mk (charListLt_connex h1 h2)

theorem stringLt_irrefl (a : String) : stringLt a a = false :=
  charListLt_irrefl a.data

theorem compareStrings_nonpos_iff {a b : String} :
    compareStrings a b ≤ 0 ↔ (stringLt a b = true ∨ a = b) := by
  unfold compareStrings
  by_cases h1 : stringLt a b = true
  · simp [h1]
  · by_cases h2 : a = b
    · subst h2
      simp [stringLt_irrefl]
    · simp [h1, h2]

theorem sessionLE_iff {a b : SessionUsage} : sessionLE a b ↔ sessionSpecOrder a b := by
  unfold sessionLE compareSessionsByDate sessionSpecOrder
  rcases hda : a.sessionDate with _ | ta <;> rcases hdb : b.sessionDate with _ | tb <;> dsimp only
  · simpa [filePathLE] using compareStrings_nonpos_iff
  · simp
  · simp
  · by_cases h : ta = tb
    · subst h
      rw [if_neg (by simp)]
      simpa [filePathLE] using compareStrings_nonpos_iff
    · rw [if_pos h]
      constructor
      · intro hle
        exact Or.inl (by omega)
      · rintro (hlt | ⟨heq, _⟩)
        · omega
        · exact absurd heq h

theorem filePathLE_total (a b : SessionUsage) : filePathLE a b ∨ filePathLE b a := by
  by_cases h1 : stringLt a.filePath b.filePath = true
  · exact Or.inl (Or.inl h1)
  · by_cases h2 : stringLt b.filePath a.filePath = true
    · exact Or.inr (Or.inl h2)
    · exact Or.inl (Or.inr (stringLt_connex (by simpa using h1) (by simpa using h2)))

theorem filePathLE_trans {a b c : SessionUsage} (h1 : filePathLE a b) (h2 : filePathLE b c) :
    filePathLE a c := by
  rcases h1 with h1 | h1 <;> rcases h2 with h2 | h2
  · exact Or.inl (stringLt_trans h1 h2)
  · exact Or.inl (h2 ▸ h1)
  · exact Or.inl (h1 ▸ h2)
  · exact Or.inr (h1.trans h2)

instance : IsTotal SessionUsage sessionLE := by
  constructor
  intro a b
  rw [sessionLE_iff, sessionLE_iff]
  unfold sessionSpecOrder
  rcases a.sessionDate with _ | ta <;> rcases b.sessionDate with _ | tb <;> simp
  · exact filePathLE_total a b
  · rcases lt_trichotomy ta tb with h | h | h
    · exact Or.inl (Or.inl h)
    · subst h
      rcases filePathLE_total a b with hp | hp
      · exact Or.inl (Or.inr ⟨rfl, hp⟩)
      · exact Or.inr (Or.inr ⟨rfl, hp⟩)
    · exact Or.inr (Or.inl h)

instance : IsTrans SessionUsage sessionLE := by
  constructor
  intro a b c h1 h2
  rw [sessionLE_iff] at h1 h2 ⊢
  unfold sessionSpecOrder at h1 h2 ⊢
  rcases hda : a.sessionDate with _ | ta <;> rcases hdb : b.sessionDate with _ | tb <;>
    rcases hdc : c.sessionDate with _ | tc <;> simp [hda, hdb, hdc] at h1 h2 ⊢
  · exact filePathLE_trans h1 h2
  · rcases h1 with h1 | ⟨h1e, h1p⟩ <;> rcases h2 with h2 | ⟨h2e, h2p⟩
    · exact Or.inl (lt_trans h1 h2)
    · exact Or.inl (h2e ▸ h1)
    · exact Or.inl (h1e ▸ h2)
    · exact Or.inr ⟨h1e.trans h2e, filePathLE_trans h1p h2p⟩

instance : IsTotal CodexUsageEvent eventLE :=
  ⟨fun a b => Int.le_total a.timestamp b.timestamp⟩

instance : IsTrans CodexUsageEvent eventLE :=
  ⟨fun _ _ _ h1 h2 => le_trans h1 h2⟩

/-! ## Helper lemmas about the small data structures -/

theorem lookupAssoc_setAssoc_self {α : Type} (m : List (String × α)) (k : String) (v : α) :
    lookupAssoc (setAssoc m k v) k = some v := by
  induction m with
  | nil => simp [setAssoc, lookupAssoc]
  | cons p rest ih =>
    obtain ⟨k', v'⟩ := p
    by_cases h : k' = k
    · simp [setAssoc, h, lookupAssoc]
    · simp [setAssoc, h, lookupAssoc, ih]

theorem bumpDaily_sum (d : List (Int × Nat)) (k : Int) :
    ((bumpDaily d k).map Prod.snd).sum = (d.map Prod.snd).sum + 1 := by
  induction d with
  | nil => simp [bumpDaily]
  | cons p rest ih =>
    obtain ⟨k', v⟩ := p
    by_cases h : k' = k
    · simp [bumpDaily, h]
      omega
    · simp [bumpDaily, h, ih]
      omega

theorem foldl_count {β : Type} (l : List β) (n : Nat) :
    l.foldl (fun t _ => t + 1) n = n + l.length := by
  induction l generalizing n with
  | nil => simp
  | cons x xs ih =>
    simp only [List.foldl, ih, List.length_cons]
    omega

theorem foldl_bumpDaily_sum (l : List SessionUserMessage) (d : List (Int × Nat)) :
    ((l.foldl (fun d m => bumpDaily d (formatDateKey m.timestamp)) d).map Prod.snd).sum
      = (d.map Prod.snd).sum + l.length := by
  induction l generalizing d with
  | nil => simp
  | cons m rest ih =>
    simp only [List.foldl, List.length_cons]
    rw [ih, bumpDaily_sum]
    omega

/-! ## Helper lemmas about prefix overlap computations -/

theorem commonPrefixLength_le_left {α : Type} [DecidableEq α] (l r : List α) :
    commonPrefixLength l r ≤ l.length := by
  induction l generalizing r with
  | nil => cases r <;> simp [commonPrefixLength]
  | cons x xs ih =>
    cases r with
    | nil => simp [commonPrefixLength]
    | cons y ys =>
      by_cases h : x = y
      · have := ih ys
        simp [commonPrefixLength, h]
        omega
      · simp [commonPrefixLength, h]

theorem commonPrefixLength_append {α : Type} [DecidableEq α] (p ex : List α) :
    commonPrefixLength (p ++ ex) p = p.length := by
  induction p with
  | nil => cases ex <;> rfl
  | cons x xs ih => simp [commonPrefixLength, ih]

theorem commonPrefixLength_take {α : Type} [DecidableEq α] (l r : List α) :
    l.take (commonPrefixLength l r) = r.take (commonPrefixLength l r) := by
  induction l generalizing r with
  | nil => cases r <;> simp [commonPrefixLength]
  | cons x xs ih =>
    cases r with
    | nil => simp [commonPrefixLength]
    | cons y ys =>
      by_cases h : x = y
      · subst h
        simp [commonPrefixLength, ih ys]
      · simp [commonPrefixLength, h]

theorem le_commonPrefixLength_of_take_eq {α : Type} [DecidableEq α] (l r : List α) (n : Nat)
    (hl : n ≤ l.length) (hr : n ≤ r.length) (h : l.take n = r.take n) :
    n ≤ commonPrefixLength l r := by
  induction n generalizing l r with
  | zero => simp
  | succ k ih =>
    cases l with
    | nil => simp at hl
    | cons x xs =>
      cases r with
      | nil => simp at hr
      | cons y ys =>
        simp only [List.take_succ_cons, List.cons.injEq] at h
        obtain ⟨hxy, ht⟩ := h
        subst hxy
        have := ih xs ys (by simpa using hl) (by simpa using hr) ht
        simp [commonPrefixLength]
        omega

theorem foldl_max_const {l : List Nat} {b : Nat} (h : ∀ x ∈ l, x ≤ b) :
    l.foldl max b = b := by
  induction l generalizing b with
  | nil => rfl
  | cons x xs ih =>
    simp only [List.foldl]
    rw [max_eq_left (h x (by simp))]
    exact ih (fun y hy => h y (by simp [hy]))

theorem commonPrefixLength_nil_left {α : Type} [DecidableEq α] (r : List α) :
    commonPrefixLength ([] : List α) r = 0 := by
  cases r <;> rfl

theorem commonPrefixLength_nil_right {α : Type} [DecidableEq α] (l : List α) :
    commonPrefixLength l ([] : List α) = 0 := by
  cases l <;> rfl

theorem findLargestOverlapGo_eq {α : Type} [DecidableEq α] (seq : List α)
    (cands : List (List α)) (best : Nat) :
    findLargestOverlapGo seq best cands = (cands.map (commonPrefixLength seq)).foldl max best := by
  induction cands generalizing best with
  | nil => rfl
  | cons c cs ih =>
    simp only [findLargestOverlapGo, List.map, List.foldl]
    by_cases hc : c = []
    · subst hc
      rw [if_pos rfl, commonPrefixLength_nil_right, max_eq_left (Nat.zero_le best)]
      exact ih best
    · rw [if_neg hc]
      by_cases hgt : commonPrefixLength seq c > best
      · rw [if_pos hgt]
        by_cases hfull : commonPrefixLength seq c = seq.length
        · rw [if_pos hfull, max_eq_right (le_of_lt hgt)]
          symm
          apply foldl_max_const
          intro x hx
          simp only [List.mem_map] at hx
          obtain ⟨d, _, rfl⟩ := hx
          rw [hfull]
          exact commonPrefixLength_le_left seq d
        · rw [if_neg hfull, max_eq_right (le_of_lt hgt)]
          exact ih _
      · rw [if_neg hgt, max_eq_left (le_of_not_lt hgt)]
        exact ih best

theorem findLargestPrefixOverlap_eq_max {α : Type} [DecidableEq α]
    (seq : List α) (cands : List (List α)) :
    findLargestPrefixOverlap seq cands = (cands.map (commonPrefixLength seq)).foldl max 0 := by
  unfold findLargestPrefixOverlap
  by_cases hs : seq = []
  · subst hs
    rw [if_pos (Or.inl rfl)]
    symm
    apply foldl_max_const
    intro x hx
    simp only [List.mem_map] at hx
    obtain ⟨d, _, rfl⟩ := hx
    simp [commonPrefixLength_nil_left]
  · by_cases hcs : cands = []
    · subst hcs
      rw [if_pos (Or.inr rfl)]
      rfl
    · rw [if_neg (by tauto)]
      exact findLargestOverlapGo_eq seq cands 0

theorem shouldApplyForkDedup_iff (overlap len : Nat) :
    shouldApplyForkDedup overlap len = true ↔
      (FORK_PREFIX_MIN_MATCH ≤ overlap ∧ (len ≤ 4 → overlap = len)) := by
  unfold shouldApplyForkDedup FORK_PREFIX_MIN_MATCH
  split_ifs with h1 h2 <;> simp_all <;> omega

/-! ## Projections of one merging-loop iteration -/

theorem processSession_events (st : CollectState) (s : SessionUsage) :
    (processSession st s).events = st.events ++ s.events.drop (dedupDecision st s).tokenStartIndex :=
  rfl

theorem processSession_totalMessages (st : CollectState) (s : SessionUsage) :
    (processSession st s).totalMessages =
      st.totalMessages + (s.userMessages.drop (dedupDecision st s).messageStartIndex).length := by
  simp [processSession, foldl_count]

theorem processSession_dailySum (st : CollectState) (s : SessionUsage) :
    ((processSession st s).dailyActivity.map Prod.snd).sum =
      (st.dailyActivity.map Prod.snd).sum
        + (s.userMessages.drop (dedupDecision st s).messageStartIndex).length := by
  simp [processSession, foldl_bumpDaily_sum]

theorem processSession_sessionsById_of_id {st : CollectState} {s : SessionUsage} {i : String}
    (h : nonEmptyOpt s.sessionId = some i) :
    (processSession st s).sessionsById
      = setAssoc st.sessionsById i
          { messageSignatures := s.messageSignatures, tokenSignatures := s.tokenSignatures } := by
  simp only [processSession]
  rw [h]

theorem dedupDecision_parent {st : CollectState} {s : SessionUsage} {p : DedupSigs}
    (h : parentLookup st s = some p) :
    dedupDecision st s =
      { messageStartIndex := commonPrefixLength s.messageSignatures p.messageSignatures
        tokenStartIndex := commonPrefixLength s.tokenSignatures p.tokenSignatures
        priorSessionsByCwd := st.priorSessionsByCwd } := by
  unfold dedupDecision
  rw [h]

theorem dedupDecision_heuristic {st : CollectState} {s : SessionUsage} {c : String}
    (hp : parentLookup st s = none) (hc : nonEmptyOpt s.cwd = some c) :
    dedupDecision st s =
      (let previousSessions := (lookupAssoc st.priorSessionsByCwd c).getD []
       let messageOverlap := findLargestPrefixOverlap s.messageSignatures
         (previousSessions.map DedupSigs.messageSignatures)
       let tokenOverlap := findLargestPrefixOverlap s.tokenSignatures
         (previousSessions.map DedupSigs.tokenSignatures)
       { messageStartIndex :=
           if shouldApplyForkDedup messageOverlap s.messageSignatures.length then messageOverlap else 0
         tokenStartIndex :=
           if shouldApplyForkDedup tokenOverlap s.tokenSignatures.length then tokenOverlap else 0
         priorSessionsByCwd :=
           setAssoc st.priorSessionsByCwd c
             (previousSessions ++
               [{ messageSignatures := s.messageSignatures, tokenSignatures := s.tokenSignatures }]) }) := by
  unfold dedupDecision
  rw [hp, hc]

/-! ## Claim C10 -/

theorem foldl_msg_invariant (sessions : List SessionUsage) (st : CollectState)
    (h : st.totalMessages = (st.dailyActivity.map Prod.snd).sum) :
    (sessions.foldl processSession st).totalMessages
      = (((sessions.foldl processSession st).dailyActivity.map Prod.snd)).sum := by
  induction sessions generalizing st with
  | nil => exact h
  | cons s rest ih =>
    apply ih
    rw [processSession_totalMessages, processSession_dailySum, h]

/-- C10: in every collection run the returned total message count equals the
sum of the per-day counts in the returned daily activity map, and one
merging-loop iteration adds each retained user message both to the total and
to exactly one day bucket. -/
theorem c10_totalMessages_eq_dailySum (files : List (String × List Entry)) :
    (collectCodexUsageData files).totalMessages
      = ((collectCodexUsageData files).dailyActivity.map Prod.snd).sum
    ∧ ∀ (st : CollectState) (s : SessionUsage),
        (processSession st s).totalMessages
          = st.totalMessages
            + (s.userMessages.drop (dedupDecision st s).messageStartIndex).length
        ∧ ((processSession st s).dailyActivity.map Prod.snd).sum
          = (st.dailyActivity.map Prod.snd).sum
            + (s.userMessages.drop (dedupDecision st s).messageStartIndex).length := by
  constructor
  · exact foldl_msg_invariant (sortSessions (files.map (fun f => processFile f.1 f.2)))
      initCollectState rfl
  · intro st s
    exact ⟨processSession_totalMessages st s, processSession_dailySum st s⟩

/-! ## Claim C8 -/

/-- C8: sessions are fed to the merging loop sorted by earliest session
timestamp ascending with timestamp-less sessions last and file path as final
tiebreak (and the sorted feed is a permutation of the parsed sessions), and
the final merged event stream is sorted by event timestamp ascending. -/
theorem c8_feed_order_and_sorted_events (files : List (String × List Entry)) :
    (sortSessions (files.map (fun f => processFile f.1 f.2))).Perm
        (files.map (fun f => processFile f.1 f.2))
    ∧ List.Pairwise sessionSpecOrder (sortSessions (files.map (fun f => processFile f.1 f.2)))
    ∧ List.Pairwise eventLE (collectCodexUsageData files).events := by
  refine ⟨List.perm_insertionSort sessionLE _, ?_, ?_⟩
  · exact (List.sorted_insertionSort sessionLE _).imp (fun h => sessionLE_iff.mp h)
  · show List.Pairwise eventLE
      (sortEvents (mergeSessions (sortSessions (files.map (fun f => processFile f.1 f.2)))).events)
    exact List.sorted_insertionSort eventLE _

/-! ## Claim C6 -/

/-- C6: when a session has a forked-from id matching a recorded session, the
merging loop discards exactly the longest common prefix of its token-signature
sequence against the parent's, and, independently, of its message-signature
sequence against the parent's, with no minimum-length threshold; the
`commonPrefixLength` so applied is exactly the largest n at which the two
sequences agree on their first n elements. -/
theorem c6_explicit_fork_exact_prefix_trim (st : CollectState) (s : SessionUsage)
    (p : DedupSigs) (fid : String)
    (hfid : nonEmptyOpt s.forkedFromId = some fid)
    (hp : lookupAssoc st.sessionsById fid = some p) :
    (processSession st s).events
        = st.events ++ s.events.drop (commonPrefixLength s.tokenSignatures p.tokenSignatures)
    ∧ (processSession st s).totalMessages
        = st.totalMessages
          + (s.userMessages.drop (commonPrefixLength s.messageSignatures p.messageSignatures)).length
    ∧ (∀ (l r : List MsgSignature),
        l.take (commonPrefixLength l r) = r.take (commonPrefixLength l r)
        ∧ ∀ n, n ≤ l.length → n ≤ r.length → l.take n = r.take n →
            n ≤ commonPrefixLength l r) := by
  have hpar : parentLookup st s = some p := by
    unfold parentLookup
    rw [hfid]
    exact hp
  refine ⟨?_, ?_, ?_⟩
  · rw [processSession_events, dedupDecision_parent hpar]
  · rw [processSession_totalMessages, dedupDecision_parent hpar]
  · intro l r
    exact ⟨commonPrefixLength_take l r,
      fun n h1 h2 h3 => le_commonPrefixLength_of_take_eq l r n h1 h2 h3⟩

/-- Witness for C6 at the spec's own example: parent messages m1 m2 m3, child
m1 m2 m3 m4 forked from it; the child contributes exactly one message. -/
theorem c6_witness :
    nonEmptyOpt sessC6.forkedFromId = some "a"
    ∧ lookupAssoc stC6.sessionsById "a" = some parC6
    ∧ (processSession stC6 sessC6).totalMessages = 1 := by
  refine ⟨by decide, by decide, ?_⟩
  rw [(c6_explicit_fork_exact_prefix_trim stC6 sessC6 parC6 "a" (by decide) (by decide)).2.1]
  decide

/-! ## Claim C5 -/

/-- C5: for a session with no matching explicit parent and a known working
directory, the applied discard counts equal the maximum common-prefix length
of each signature sequence over the directory's previously seen candidate
sequences, applied if and only if that overlap is at least 3 and, when the
sequence has at most 4 elements, equals the full sequence length. -/
theorem c5_heuristic_overlap_guard (st : CollectState) (s : SessionUsage) (c : String)
    (hp : parentLookup st s = none) (hc : nonEmptyOpt s.cwd = some c) :
    ((dedupDecision st s).messageStartIndex =
      (let overlap :=
        (((((lookupAssoc st.priorSessionsByCwd c).getD []).map DedupSigs.messageSignatures)).map
            (commonPrefixLength s.messageSignatures)).foldl max 0
       if 3 ≤ overlap ∧ (s.messageSignatures.length ≤ 4 → overlap = s.messageSignatures.length)
       then overlap else 0))
    ∧ ((dedupDecision st s).tokenStartIndex =
      (let overlap :=
        (((((lookupAssoc st.priorSessionsByCwd c).getD []).map DedupSigs.tokenSignatures)).map
            (commonPrefixLength s.tokenSignatures)).foldl max 0
       if 3 ≤ overlap ∧ (s.tokenSignatures.length ≤ 4 → overlap = s.tokenSignatures.length)
       then overlap else 0))
    ∧ (processSession st s).events = st.events ++ s.events.drop (dedupDecision st s).tokenStartIndex
    ∧ (processSession st s).totalMessages
        = st.totalMessages + (s.userMessages.drop (dedupDecision st s).messageStartIndex).length := by
  have hguard : ∀ ov len : Nat,
      (if shouldApplyForkDedup ov len = true then ov else 0)
        = if 3 ≤ ov ∧ (len ≤ 4 → ov = len) then ov else 0 := by
    intro ov len
    apply if_congr _ rfl rfl
    rw [shouldApplyForkDedup_iff]
    exact Iff.rfl
  refine ⟨?_, ?_, processSession_events st s, processSession_totalMessages st s⟩
  · rw [dedupDecision_heuristic hp hc]
    dsimp only
    rw [findLargestPrefixOverlap_eq_max]
    exact hguard _ _
  · rw [dedupDecision_heuristic hp hc]
    dsimp only
    rw [findLargestPrefixOverlap_eq_max]
    exact hguard _ _

/-- Witness for C5: an unrelated session of length 5 sharing a 3-element
leading prefix with a prior same-directory session is trimmed by 3. -/
theorem c5_witness :
    parentLookup stC5 sessC5 = none
    ∧ nonEmptyOpt sessC5.cwd = some "d"
    ∧ (dedupDecision stC5 sessC5).messageStartIndex = 3 := by
  refine ⟨by decide, by decide, ?_⟩
  rw [(c5_heuristic_overlap_guard stC5 sessC5 "d" (by decide) (by decide)).1]
  decide

/-! ## Claim C3 -/

/-- C3 counterexample: session B declares forked-from "a", which matches, and
carries working directory "d"; after the merge the "d" candidate list does not
receive B's signature sequences (it does not exist at all), contradicting the
claim that recording happens regardless of the dedup strategy. -/
theorem c3_counterexample :
    nonEmptyOpt sessB3.cwd = some "d"
    ∧ parentLookup (processSession initCollectState sessA3) sessB3
        = some { messageSignatures := [], tokenSignatures := [] }
    ∧ (mergeSessions [sessA3, sessB3]).priorSessionsByCwd = [] := by
  refine ⟨by decide, by decide, by decide⟩

/-- C3 amended: after processing, a session's signature sequences are
recorded under its session id whenever it has one (any strategy), and they
are appended to its working directory's candidate list whenever it has a
working directory and no explicit parent match was found. -/
theorem c3_amended_recording :
    (∀ (st : CollectState) (s : SessionUsage) (i : String),
        nonEmptyOpt s.sessionId = some i →
        lookupAssoc (processSession st s).sessionsById i
          = some { messageSignatures := s.messageSignatures
                   tokenSignatures := s.tokenSignatures })
    ∧ (∀ (st : CollectState) (s : SessionUsage) (c : String),
        parentLookup st s = none →
        nonEmptyOpt s.cwd = some c →
        lookupAssoc (processSession st s).priorSessionsByCwd c
          = some (((lookupAssoc st.priorSessionsByCwd c).getD [])
              ++ [{ messageSignatures := s.messageSignatures
                    tokenSignatures := s.tokenSignatures }])) := by
  constructor
  · intro st s i hi
    rw [processSession_sessionsById_of_id hi]
    exact lookupAssoc_setAssoc_self _ _ _
  · intro st s c hp hc
    have hpr : (processSession st s).priorSessionsByCwd = (dedupDecision st s).priorSessionsByCwd :=
      rfl
    rw [hpr, dedupDecision_heuristic hp hc]
    dsimp only
    exact lookupAssoc_setAssoc_self _ _ _

/-- Witness for the amended C3 at a concrete session with an id, a working
directory and no parent match. -/
theorem c3_witness :
    nonEmptyOpt sessC3w.sessionId = some "w"
    ∧ parentLookup initCollectState sessC3w = none
    ∧ nonEmptyOpt sessC3w.cwd = some "d"
    ∧ lookupAssoc (processSession initCollectState sessC3w).sessionsById "w"
        = some { messageSignatures := [mkMsgSig 7], tokenSignatures := [] }
    ∧ lookupAssoc (processSession initCollectState sessC3w).priorSessionsByCwd "d"
        = some [{ messageSignatures := [mkMsgSig 7], tokenSignatures := [] }] := by
  refine ⟨by decide, by decide, by decide, ?_, ?_⟩
  · exact c3_amended_recording.1 initCollectState sessC3w "w" (by decide)
  · exact c3_amended_recording.2 initCollectState sessC3w "d" (by decide) (by decide)

/-! ## Claim C7 -/

/-- C7: a token_count record whose computed delta has all four component
counters (input, cached-input, output, reasoning-output) equal to zero
appends no usage event to the session's event list. -/
theorem c7_zero_delta_suppressed (s : ParseState) (tsOpt : Option Int) (payload : TCPayload)
    (r : RawUsage)
    (hr : tokenRaw payload s.previousTotals = some r)
    (hz : (convertToDelta r).inputTokens = 0 ∧ (convertToDelta r).cachedInputTokens = 0
        ∧ (convertToDelta r).outputTokens = 0 ∧ (convertToDelta r).reasoningOutputTokens = 0) :
    (processEntry s (.tokenCount tsOpt payload)).sessionEvents = s.sessionEvents := by
  show (processTokenCount s tsOpt payload).sessionEvents = s.sessionEvents
  cases tsOpt with
  | none => rfl
  | some ts =>
    unfold processTokenCount
    dsimp only
    rw [hr]
    dsimp only
    rw [if_pos hz]

/-- Witness for C7: a direct delta with all four components zero (but a
positive reported total) is suppressed. -/
theorem c7_witness :
    tokenRaw payC7 initParseState.previousTotals = some rawC7
    ∧ ((convertToDelta rawC7).inputTokens = 0 ∧ (convertToDelta rawC7).cachedInputTokens = 0
        ∧ (convertToDelta rawC7).outputTokens = 0 ∧ (convertToDelta rawC7).reasoningOutputTokens = 0)
    ∧ (processEntry initParseState (.tokenCount (some 3) payC7)).sessionEvents
        = initParseState.sessionEvents := by
  refine ⟨by decide, by decide, ?_⟩
  exact c7_zero_delta_suppressed initParseState (some 3) payC7 rawC7 (by decide) (by decide)

/-! ## Claim C4 -/

theorem processTokenCount_previousTotals (s : ParseState) (ts : Int) (payload : TCPayload)
    (t : RawUsage)
    (htot : normalizeRawUsage (payload.info.bind InfoObj.total_token_usage) = some t) :
    (processTokenCount s (some ts) payload).previousTotals = some t := by
  unfold processTokenCount
  dsimp only
  rw [htot]
  rcases h : tokenRaw payload s.previousTotals with _ | r
  · rfl
  · dsimp only
    split
    · rfl
    · rcases h2 : extractModel (some payload) with _ | m
      · rcases h3 : s.currentModel with _ | c <;> rfl
      · rfl

/-- C4 amended: when a token_count record has no direct delta but carries
cumulative totals, the raw delta fed to conversion is max(current - previous)
0 computed independently per field against the session's last-seen cumulative
totals; the emitted event (when not all-zero) carries the standard conversion
of that clamped raw delta; and the last-seen totals are updated to the new
cumulative totals on every record carrying them, even when a direct delta was
present and used instead. -/
theorem c4_cumulative_clamped_delta (s : ParseState) (ts : Int) (payload : TCPayload)
    (t : RawUsage)
    (hlast : normalizeRawUsage (payload.info.bind InfoObj.last_token_usage) = none)
    (htot : normalizeRawUsage (payload.info.bind InfoObj.total_token_usage) = some t) :
    (tokenRaw payload s.previousTotals
      = some { input_tokens := max (t.input_tokens - ((s.previousTotals.map RawUsage.input_tokens).getD 0)) 0
               cached_input_tokens := max (t.cached_input_tokens - ((s.previousTotals.map RawUsage.cached_input_tokens).getD 0)) 0
               output_tokens := max (t.output_tokens - ((s.previousTotals.map RawUsage.output_tokens).getD 0)) 0
               reasoning_output_tokens := max (t.reasoning_output_tokens - ((s.previousTotals.map RawUsage.reasoning_output_tokens).getD 0)) 0
               total_tokens := max (t.total_tokens - ((s.previousTotals.map RawUsage.total_tokens).getD 0)) 0 })
    ∧ (processEntry s (.tokenCount (some ts) payload)).previousTotals = some t
    ∧ ((processEntry s (.tokenCount (some ts) payload)).sessionEvents.map
          (fun e => (e.inputTokens, e.cachedInputTokens, e.outputTokens,
            e.reasoningOutputTokens, e.totalTokens))
        = s.sessionEvents.map
            (fun e => (e.inputTokens, e.cachedInputTokens, e.outputTokens,
              e.reasoningOutputTokens, e.totalTokens))
          ++ (if (convertToDelta (subtractRawUsage t s.previousTotals)).inputTokens = 0
                  ∧ (convertToDelta (subtractRawUsage t s.previousTotals)).cachedInputTokens = 0
                  ∧ (convertToDelta (subtractRawUsage t s.previousTotals)).outputTokens = 0
                  ∧ (convertToDelta (subtractRawUsage t s.previousTotals)).reasoningOutputTokens = 0
              then []
              else [((convertToDelta (subtractRawUsage t s.previousTotals)).inputTokens,
                (convertToDelta (subtractRawUsage t s.previousTotals)).cachedInputTokens,
                (convertToDelta (subtractRawUsage t s.previousTotals)).outputTokens,
                (convertToDelta (subtractRawUsage t s.previousTotals)).reasoningOutputTokens,
                (convertToDelta (subtractRawUsage t s.previousTotals)).totalTokens)]))
    ∧ (∀ (s' : ParseState) (ts' : Int) (payload' : TCPayload) (t' : RawUsage),
        normalizeRawUsage (payload'.info.bind InfoObj.total_token_usage) = some t' →
        (processEntry s' (.tokenCount (some ts') payload')).previousTotals = some t') := by
  have htr : tokenRaw payload s.previousTotals = some (subtractRawUsage t s.previousTotals) := by
    unfold tokenRaw
    rw [hlast, htot]
  refine ⟨?_, ?_, ?_, ?_⟩
  · rw [htr]
    rfl
  · exact processTokenCount_previousTotals s ts payload t htot
  · show (processTokenCount s (some ts) payload).sessionEvents.map _ = _
    unfold processTokenCount
    dsimp only
    rw [htr]
    dsimp only
    split
    · simp
    · rcases h2 : extractModel (some payload) with _ | m
      · rcases h3 : s.currentModel with _ | c <;> simp [h2, h3, mkEvent]
      · simp [h2, mkEvent]
  · intro s' ts' payload' t' htot'
    exact processTokenCount_previousTotals s' ts' payload' t' htot'

/-- Witness for C4 at the spec's test vector: cumulative totals 100/50 then
150/80 give delta 50/30, and the previous totals are updated. -/
theorem c4_witness :
    normalizeRawUsage (payC4.info.bind InfoObj.last_token_usage) = none
    ∧ normalizeRawUsage (payC4.info.bind InfoObj.total_token_usage) = some rawC4t
    ∧ tokenRaw payC4 stC4.previousTotals
        = some { input_tokens := 50, cached_input_tokens := 0, output_tokens := 30,
                 reasoning_output_tokens := 0, total_tokens := 80 }
    ∧ (processEntry stC4 (.tokenCount (some 2) payC4)).previousTotals = some rawC4t := by
  refine ⟨by decide, by decide, ?_, ?_⟩
  · rw [(c4_cumulative_clamped_delta stC4 2 payC4 rawC4t (by decide) (by decide)).1]
    decide
  · exact (c4_cumulative_clamped_delta stC4 2 payC4 rawC4t (by decide) (by decide)).2.1

/-- C4 counterexample: a cumulative-only record with cached 20 and input 10
against empty previous totals; the claim's per-field formula gives a cached
delta of max(20 - 0, 0) = 20, but the emitted event carries 10. -/
theorem c4_counterexample :
    (processFile "f" [Entry.tokenCount (some 0) payC4x]).events.map
        CodexUsageEvent.cachedInputTokens = [10]
    ∧ max ((20 : Int) - 0) 0 = 20 := by
  refine ⟨by decide, by decide⟩

/-! ## Claim C9 -/

/-- C9: the model of an emitted token_count event is resolved as (a) the
model extracted from the record's own payload via the preference chain
info.model, info.model_name, info.metadata.model, top-level model,
metadata.model (first non-empty string), which also refreshes the tracked
current model and clears its fallback flag; else (b) the tracked current
model, leaving the tracker untouched; else (c) the legacy fallback model,
which also sets the tracker to the fallback model with its fallback flag
set. -/
theorem c9_model_resolution (s : ParseState) (ts : Int) (payload : TCPayload) (r : RawUsage)
    (hr : tokenRaw payload s.previousTotals = some r)
    (hnz : ¬((convertToDelta r).inputTokens = 0 ∧ (convertToDelta r).cachedInputTokens = 0
        ∧ (convertToDelta r).outputTokens = 0 ∧ (convertToDelta r).reasoningOutputTokens = 0)) :
    (∀ q : TCPayload,
        extractModel (some q)
          = (asNonEmptyString (q.info.bind InfoObj.model)
              <|> asNonEmptyString (q.info.bind InfoObj.model_name)
              <|> asNonEmptyString ((q.info.bind InfoObj.metadata).bind MetaObj.model)
              <|> asNonEmptyString q.model
              <|> asNonEmptyString (q.metadata.bind MetaObj.model)))
    ∧ (∀ m, extractModel (some payload) = some m →
        (processEntry s (.tokenCount (some ts) payload)).sessionEvents.map CodexUsageEvent.model
            = s.sessionEvents.map CodexUsageEvent.model ++ [m]
        ∧ (processEntry s (.tokenCount (some ts) payload)).currentModel = some m
        ∧ (processEntry s (.tokenCount (some ts) payload)).currentModelIsFallback = false)
    ∧ (∀ c, extractModel (some payload) = none → s.currentModel = some c →
        (processEntry s (.tokenCount (some ts) payload)).sessionEvents.map CodexUsageEvent.model
            = s.sessionEvents.map CodexUsageEvent.model ++ [c]
        ∧ (processEntry s (.tokenCount (some ts) payload)).currentModel = some c
        ∧ (processEntry s (.tokenCount (some ts) payload)).currentModelIsFallback
            = s.currentModelIsFallback)
    ∧ (extractModel (some payload) = none → s.currentModel = none →
        (processEntry s (.tokenCount (some ts) payload)).sessionEvents.map CodexUsageEvent.model
            = s.sessionEvents.map CodexUsageEvent.model ++ [LEGACY_FALLBACK_MODEL]
        ∧ (processEntry s (.tokenCount (some ts) payload)).currentModel
            = some LEGACY_FALLBACK_MODEL
        ∧ (processEntry s (.tokenCount (some ts) payload)).currentModelIsFallback = true) := by
  refine ⟨?_, ?_, ?_, ?_⟩
  · intro q
    unfold extractModel
    rcases hi : q.info with _ | info
    · simp only [hi, Option.none_bind]
      show _ = (none <|> (none <|> (none <|> _)))
      rcases h1 : asNonEmptyString q.model with _ | m
      · rcases hm : q.metadata with _ | md <;> simp [h1, hm, asNonEmptyString]
      · simp [h1]
    · simp only [hi, Option.some_bind]
      rcases h1 : asNonEmptyString info.model with _ | m
      · rcases h2 : asNonEmptyString info.model_name with _ | m2
        · rcases h3 : info.metadata with _ | md
          · simp only [h1, h2, h3, Option.none_bind]
            show _ = (none <|> (none <|> (none <|> _)))
            rcases h4 : asNonEmptyString q.model with _ | m4
            · rcases hm : q.metadata with _ | md2 <;> simp [h4, hm, asNonEmptyString]
            · simp [h4]
          · simp only [h1, h2, h3, Option.some_bind]
            rcases h4 : asNonEmptyString md.model with _ | m4
            · simp only [h4]
              show _ = (none <|> (none <|> (none <|> _)))
              rcases h5 : asNonEmptyString q.model with _ | m5
              · rcases hm : q.metadata with _ | md2 <;> simp [h5, hm, asNonEmptyString]
              · simp [h5]
            · simp [h4]
        · simp [h1, h2]
      · simp [h1]
  · intro m hm
    show (processTokenCount s (some ts) payload).sessionEvents.map CodexUsageEvent.model = _
      ∧ (processTokenCount s (some ts) payload).currentModel = _
      ∧ (processTokenCount s (some ts) payload).currentModelIsFallback = _
    unfold processTokenCount
    dsimp only
    rw [hr]
    dsimp only
    rw [if_neg hnz, hm]
    dsimp only
    exact ⟨by simp [mkEvent], rfl, rfl⟩
  · intro c hm hc
    show (processTokenCount s (some ts) payload).sessionEvents.map CodexUsageEvent.model = _
      ∧ (processTokenCount s (some ts) payload).currentModel = _
      ∧ (processTokenCount s (some ts) payload).currentModelIsFallback = _
    unfold processTokenCount
    dsimp only
    rw [hr]
    dsimp only
    rw [if_neg hnz, hm]
    dsimp only
    rw [hc]
    dsimp only
    exact ⟨by simp [mkEvent], rfl, rfl⟩
  · intro hm hc
    show (processTokenCount s (some ts) payload).sessionEvents.map CodexUsageEvent.model = _
      ∧ (processTokenCount s (some ts) payload).currentModel = _
      ∧ (processTokenCount s (some ts) payload).currentModelIsFallback = _
    unfold processTokenCount
    dsimp only
    rw [hr]
    dsimp only
    rw [if_neg hnz, hm]
    dsimp only
    rw [hc]
    dsimp only
    exact ⟨by simp [mkEvent], rfl, rfl⟩

/-- Witness for C9, case (a): a payload carrying info.model = "m1" emits an
event with model "m1" and refreshes the tracker. -/
theorem c9_witness :
    tokenRaw payC9 initParseState.previousTotals = some rawC9
    ∧ ¬((convertToDelta rawC9).inputTokens = 0 ∧ (convertToDelta rawC9).cachedInputTokens = 0
        ∧ (convertToDelta rawC9).outputTokens = 0 ∧ (convertToDelta rawC9).reasoningOutputTokens = 0)
    ∧ extractModel (some payC9) = some "m1"
    ∧ (processEntry initParseState (.tokenCount (some 4) payC9)).sessionEvents.map
        CodexUsageEvent.model = ["m1"]
    ∧ (processEntry initParseState (.tokenCount (some 4) payC9)).currentModel = some "m1"
    ∧ (processEntry initParseState (.tokenCount (some 4) payC9)).currentModelIsFallback = false := by
  have h := (c9_model_resolution initParseState 4 payC9 rawC9 (by decide) (by decide)).2.1
    "m1" (by decide)
  exact ⟨by decide, by decide, by decide, h.1, h.2.1, h.2.2⟩

/-! ## Claim C2 -/

theorem ensureNumber_nonneg {v : Option JNumVal} (h : numNonneg v = true) :
    0 ≤ ensureNumber v := by
  unfold numNonneg at h
  unfold ensureNumber
  rcases v with _ | v
  · simp
  · rcases v with n | _ | _
    · exact of_decide_eq_true h
    · simp
    · simp

theorem ensureNumber_orElse_nonneg {a b : Option JNumVal}
    (ha : numNonneg a = true) (hb : numNonneg b = true) :
    0 ≤ ensureNumber (a <|> b) := by
  rcases a with _ | av
  · simpa using ensureNumber_nonneg hb
  · simpa using ensureNumber_nonneg (v := some av) ha

theorem normalizeRawUsage_fields (rec : RawUsageRecord) :
    normalizeRawUsage (some rec)
      = some { input_tokens := ensureNumber rec.input_tokens
               cached_input_tokens :=
                 ensureNumber (rec.cached_input_tokens <|> rec.cache_read_input_tokens)
               output_tokens := ensureNumber rec.output_tokens
               reasoning_output_tokens := ensureNumber rec.reasoning_output_tokens
               total_tokens :=
                 if ensureNumber rec.total_tokens > 0 then ensureNumber rec.total_tokens
                 else ensureNumber rec.input_tokens + ensureNumber rec.output_tokens } := rfl

theorem normalized_nonneg {rec : RawUsageRecord} (h : rawRecordNonneg rec = true)
    (t : RawUsage) (ht : normalizeRawUsage (some rec) = some t) :
    0 ≤ t.input_tokens ∧ 0 ≤ t.cached_input_tokens ∧ 0 ≤ t.output_tokens
      ∧ 0 ≤ t.reasoning_output_tokens := by
  rw [normalizeRawUsage_fields] at ht
  injection ht with ht
  subst ht
  unfold rawRecordNonneg at h
  simp only [Bool.and_eq_true] at h
  exact ⟨ensureNumber_nonneg h.1.1.1.1.1,
    ensureNumber_orElse_nonneg h.1.1.1.1.2 h.1.1.1.2,
    ensureNumber_nonneg h.1.1.2,
    ensureNumber_nonneg h.1.2⟩

theorem subtractRawUsage_nonneg (t : RawUsage) (prev : Option RawUsage) :
    0 ≤ (subtractRawUsage t prev).input_tokens
    ∧ 0 ≤ (subtractRawUsage t prev).cached_input_tokens
    ∧ 0 ≤ (subtractRawUsage t prev).output_tokens
    ∧ 0 ≤ (subtractRawUsage t prev).reasoning_output_tokens :=
  ⟨le_max_right _ _, le_max_right _ _, le_max_right _ _, le_max_right _ _⟩

theorem tokenRaw_nonneg (payload : TCPayload) (prev : Option RawUsage) (r : RawUsage)
    (hl : ∀ lrec, payload.info.bind InfoObj.last_token_usage = some lrec →
      rawRecordNonneg lrec = true)
    (hr : tokenRaw payload prev = some r) :
    0 ≤ r.input_tokens ∧ 0 ≤ r.cached_input_tokens ∧ 0 ≤ r.output_tokens
      ∧ 0 ≤ r.reasoning_output_tokens := by
  unfold tokenRaw at hr
  rcases hlast : payload.info.bind InfoObj.last_token_usage with _ | lrec
  · rw [hlast] at hr
    simp only [normalizeRawUsage] at hr
    rcases htot : payload.info.bind InfoObj.total_token_usage with _ | trec
    · rw [htot] at hr
      dsimp only at hr
      cases hr
    · rw [htot] at hr
      dsimp only at hr
      injection hr with hr
      subst hr
      exact subtractRawUsage_nonneg _ _
  · rw [hlast, normalizeRawUsage_fields] at hr
    dsimp only at hr
    injection hr with hr
    subst hr
    exact normalized_nonneg (hl lrec hlast) _ (normalizeRawUsage_fields lrec)

theorem convertToDelta_props (r : RawUsage)
    (h1 : 0 ≤ r.input_tokens) (h2 : 0 ≤ r.cached_input_tokens)
    (h3 : 0 ≤ r.output_tokens) (h4 : 0 ≤ r.reasoning_output_tokens) :
    eventDeltaOK (mkEvent 0 "" (convertToDelta r)) := by
  unfold eventDeltaOK mkEvent convertToDelta
  dsimp only
  refine ⟨h1, le_min h2 h1, h3, h4, ?_, min_le_right _ _, ?_⟩
  · split
    · omega
    · exact add_nonneg h1 h3
  · split
    · rename_i hpos
      exact Or.inl hpos
    · exact Or.inr rfl

theorem processSessionMeta_sessionEvents (s : ParseState) (pts tts : Option Int)
    (cwd : Option String) (id forked : Option JScalar) :
    (processSessionMeta s pts tts cwd id forked).sessionEvents = s.sessionEvents := by
  unfold processSessionMeta
  dsimp only
  repeat' split
  all_goals rfl

theorem processEntry_eventDeltaOK (s : ParseState) (e : Entry)
    (he : entryNonneg e = true)
    (hs : ∀ ev ∈ s.sessionEvents, eventDeltaOK ev) :
    ∀ ev ∈ (processEntry s e).sessionEvents, eventDeltaOK ev := by
  cases e with
  | sessionMeta pts tts cwd id forked =>
    intro ev hev
    rw [show processEntry s (.sessionMeta pts tts cwd id forked)
        = processSessionMeta s pts tts cwd id forked from rfl,
      processSessionMeta_sessionEvents] at hev
    exact hs ev hev
  | turnContext payload =>
    intro ev hev
    unfold processEntry at hev
    dsimp only at hev
    rcases h : extractModel payload with _ | m
    · rw [h] at hev
      exact hs ev hev
    · rw [h] at hev
      exact hs ev hev
  | userMessage tsOpt payload =>
    intro ev hev
    unfold processEntry at hev
    rcases tsOpt with _ | ts
    · exact hs ev hev
    · exact hs ev (by simpa using hev)
  | otherEntry => exact hs
  | tokenCount tsOpt payload =>
    show ∀ ev ∈ (processTokenCount s tsOpt payload).sessionEvents, eventDeltaOK ev
    rcases tsOpt with _ | ts
    · exact hs
    · unfold processTokenCount
      dsimp only
      rcases hr : tokenRaw payload s.previousTotals with _ | r
      · exact hs
      · dsimp only
        have hl : ∀ lrec, payload.info.bind InfoObj.last_token_usage = some lrec →
            rawRecordNonneg lrec = true := by
          intro lrec hlr
          unfold entryNonneg at he
          dsimp only at he
          rw [hlr] at he
          simp only [Bool.and_eq_true] at he
          exact he.1
        have hrn := tokenRaw_nonneg payload s.previousTotals r hl hr
        have hprops := convertToDelta_props r hrn.1 hrn.2.1 hrn.2.2.1 hrn.2.2.2
        split
        · exact hs
        · have hnew : ∀ (m : String),
              eventDeltaOK (mkEvent ts m (convertToDelta r)) := fun m => hprops
          rcases hx : extractModel (some payload) with _ | m
          · rcases hc : s.currentModel with _ | c
            · intro ev hev
              simp only [List.mem_append, List.mem_singleton] at hev
              rcases hev with hev | hev
              · exact hs ev hev
              · rw [hev]
                exact hnew _
            · intro ev hev
              simp only [List.mem_append, List.mem_singleton] at hev
              rcases hev with hev | hev
              · exact hs ev hev
              · rw [hev]
                exact hnew _
          · intro ev hev
            simp only [List.mem_append, List.mem_singleton] at hev
            rcases hev with hev | hev
            · exact hs ev hev
            · rw [hev]
              exact hnew _

theorem foldl_eventDeltaOK (entries : List Entry) (s : ParseState)
    (he : ∀ e ∈ entries, entryNonneg e = true)
    (hs : ∀ ev ∈ s.sessionEvents, eventDeltaOK ev) :
    ∀ ev ∈ (entries.foldl processEntry s).sessionEvents, eventDeltaOK ev := by
  induction entries generalizing s with
  | nil => exact hs
  | cons e rest ih =>
    exact ih _ (fun x hx => he x (by simp [hx]))
      (processEntry_eventDeltaOK s e (he e (by simp)) hs)

/-- C2 amended: provided every numeric counter in the log's usage records is
non-negative (non-numeric and missing values coerce to 0), every emitted
event's delta has all five token fields non-negative; unconditionally under
the same hypotheses, cachedInputTokens never exceeds inputTokens and
totalTokens is positive or equals inputTokens + outputTokens. -/
theorem c2_delta_invariants (path : String) (entries : List Entry)
    (h : ∀ e ∈ entries, entryNonneg e = true) :
    ∀ ev ∈ (processFile path entries).events,
      0 ≤ ev.inputTokens ∧ 0 ≤ ev.cachedInputTokens ∧ 0 ≤ ev.outputTokens
      ∧ 0 ≤ ev.reasoningOutputTokens ∧ 0 ≤ ev.totalTokens
      ∧ ev.cachedInputTokens ≤ ev.inputTokens
      ∧ (0 < ev.totalTokens ∨ ev.totalTokens = ev.inputTokens + ev.outputTokens) := by
  intro ev hev
  exact foldl_eventDeltaOK entries initParseState h
    (fun x hx => absurd hx (List.not_mem_nil x)) ev hev

/-- Witness for the amended C2 at a concrete well-formed log. -/
theorem c2_witness :
    (∀ e ∈ [Entry.tokenCount (some 1) payC2w], entryNonneg e = true)
    ∧ ∀ ev ∈ (processFile "w" [Entry.tokenCount (some 1) payC2w]).events,
        0 ≤ ev.inputTokens ∧ 0 ≤ ev.cachedInputTokens ∧ 0 ≤ ev.outputTokens
        ∧ 0 ≤ ev.reasoningOutputTokens ∧ 0 ≤ ev.totalTokens
        ∧ ev.cachedInputTokens ≤ ev.inputTokens
        ∧ (0 < ev.totalTokens ∨ ev.totalTokens = ev.inputTokens + ev.outputTokens) := by
  refine ⟨by decide, ?_⟩
  exact c2_delta_invariants "w" [Entry.tokenCount (some 1) payC2w] (by decide)

/-- C2 counterexample: a directly reported negative input counter survives
normalization and is emitted, so the claimed non-negativity fails for
arbitrary raw values. -/
theorem c2_counterexample :
    (processFile "f" [Entry.tokenCount (some 0) payC2x]).events.map
        CodexUsageEvent.inputTokens = [-5]
    ∧ ((-5 : Int) < 0) := by
  refine ⟨by decide, by decide⟩

/-! ## Claim C1 -/

theorem dedupDecision_no_candidates (st : CollectState) (s : SessionUsage)
    (hpar : parentLookup st s = none)
    (hcand : ∀ c, nonEmptyOpt s.cwd = some c → lookupAssoc st.priorSessionsByCwd c = none) :
    (dedupDecision st s).messageStartIndex = 0
    ∧ (dedupDecision st s).tokenStartIndex = 0 := by
  rcases hc : nonEmptyOpt s.cwd with _ | c
  · unfold dedupDecision
    rw [hpar, hc]
    exact ⟨rfl, rfl⟩
  · rw [dedupDecision_heuristic hpar hc, hcand c hc]
    constructor <;>
      simp [findLargestPrefixOverlap_eq_max, shouldApplyForkDedup, FORK_PREFIX_MIN_MATCH]

theorem dedupDecision_initial (s : SessionUsage) :
    (dedupDecision initCollectState s).messageStartIndex = 0
    ∧ (dedupDecision initCollectState s).tokenStartIndex = 0 := by
  apply dedupDecision_no_candidates
  · unfold parentLookup
    rcases h : nonEmptyOpt s.forkedFromId with _ | fid
    · rfl
    · rfl
  · intro c _
    rfl

/-- C1 amended: for a parent session A and a child B that declares
forked-from A's id and whose signature sequences extend A's, the merged
stream counts every token signature exactly as often as it occurs in A plus
its occurrences in B's new suffix, and the total message count is A's
messages plus B's new suffix — the copied prefix is counted exactly once.
(In general, records of sessions with no declared fork relation and no
qualifying same-directory overlap may repeat.) -/
theorem c1_fork_prefix_counted_once (A B : SessionUsage) (i : String)
    (mex : List MsgSignature) (tex : List TokenSig)
    (hAid : nonEmptyOpt A.sessionId = some i)
    (hBfork : nonEmptyOpt B.forkedFromId = some i)
    (hAtok : A.tokenSignatures = A.events.map createTokenEventSignature)
    (hBtok : B.tokenSignatures = B.events.map createTokenEventSignature)
    (hAmsg : A.messageSignatures = A.userMessages.map SessionUserMessage.signature)
    (hBmsg : B.messageSignatures = B.userMessages.map SessionUserMessage.signature)
    (hText : B.tokenSignatures = A.tokenSignatures ++ tex)
    (hMext : B.messageSignatures = A.messageSignatures ++ mex)
    (hord : sessionLE A B) :
    (∀ sig : TokenSig,
        ((collectSessions [A, B]).events.map createTokenEventSignature).count sig
          = A.tokenSignatures.count sig + tex.count sig)
    ∧ (collectSessions [A, B]).totalMessages = A.userMessages.length + mex.length := by
  have hinit := dedupDecision_initial A
  have hev1 : (processSession initCollectState A).events = A.events := by
    rw [processSession_events, hinit.2]
    simp [initCollectState]
  have hmsg1 : (processSession initCollectState A).totalMessages = A.userMessages.length := by
    rw [processSession_totalMessages, hinit.1]
    simp [initCollectState]
  have hbyid : (processSession initCollectState A).sessionsById
      = setAssoc initCollectState.sessionsById i
          { messageSignatures := A.messageSignatures, tokenSignatures := A.tokenSignatures } :=
    processSession_sessionsById_of_id hAid
  have hpar : parentLookup (processSession initCollectState A) B
      = some { messageSignatures := A.messageSignatures, tokenSignatures := A.tokenSignatures } := by
    unfold parentLookup
    rw [hBfork, hbyid]
    exact lookupAssoc_setAssoc_self _ _ _
  have hdec := dedupDecision_parent hpar
  have hcplT : commonPrefixLength B.tokenSignatures A.tokenSignatures
      = A.tokenSignatures.length := by
    rw [hText]
    exact commonPrefixLength_append _ _
  have hcplM : commonPrefixLength B.messageSignatures A.messageSignatures
      = A.messageSignatures.length := by
    rw [hMext]
    exact commonPrefixLength_append _ _
  have hsort : sortSessions [A, B] = [A, B] := by
    unfold sortSessions
    simp [List.insertionSort, List.orderedInsert, hord]
  have hmerge : mergeSessions (sortSessions [A, B])
      = processSession (processSession initCollectState A) B := by
    rw [hsort]
    rfl
  constructor
  · intro sig
    have hevents : (collectSessions [A, B]).events
        = sortEvents (processSession (processSession initCollectState A) B).events := by
      show sortEvents (mergeSessions (sortSessions [A, B])).events = _
      rw [hmerge]
    rw [hevents]
    unfold sortEvents
    have hperm := (List.perm_insertionSort eventLE
      (processSession (processSession initCollectState A) B).events).map
        createTokenEventSignature
    rw [hperm.count_eq sig]
    rw [processSession_events, hdec]
    dsimp only
    rw [hcplT, hev1, List.map_append, List.count_append]
    congr 1
    · rw [← hAtok]
    · rw [List.map_drop, ← hBtok, hText, List.drop_left]
  · have htm : (collectSessions [A, B]).totalMessages
        = (processSession (processSession initCollectState A) B).totalMessages := by
      show (mergeSessions (sortSessions [A, B])).totalMessages = _
      rw [hmerge]
    rw [htm, processSession_totalMessages, hdec]
    dsimp only
    rw [hcplM, hmsg1, List.length_drop]
    have hlen : B.userMessages.length = A.messageSignatures.length + mex.length := by
      have h2 := congrArg List.length hMext
      rw [hBmsg] at h2
      simpa using h2
    have hAlen : A.messageSignatures.length = A.userMessages.length := by
      rw [hAmsg]
      simp
    omega

/-- Witness for the amended C1 at a concrete fork pair: the shared event and
the shared message are counted once; B contributes only its new suffix. -/
theorem c1_witness :
    nonEmptyOpt sessAC1.sessionId = some "a"
    ∧ nonEmptyOpt sessBC1.forkedFromId = some "a"
    ∧ sessBC1.tokenSignatures = sessAC1.tokenSignatures ++ [createTokenEventSignature evC1b]
    ∧ ((collectSessions [sessAC1, sessBC1]).events.map createTokenEventSignature).count
        (createTokenEventSignature evC1a) = 1
    ∧ (collectSessions [sessAC1, sessBC1]).totalMessages = 2 := by
  have h := c1_fork_prefix_counted_once sessAC1 sessBC1 "a"
    [mkMsgSig 2] [createTokenEventSignature evC1b]
    (by decide) (by decide) (by decide) (by decide) (by decide) (by decide)
    (by decide) (by decide) (by decide)
  refine ⟨by decide, by decide, by decide, ?_, ?_⟩
  · rw [h.1 (createTokenEventSignature evC1a)]
    decide
  · rw [h.2]
    decide

/-- C1 counterexample: two log files with identical content, no session ids,
no fork ids and no working directory; the merged stream contains the same
usage-event signature twice, refuting the claimed at-most-once invariant for
arbitrary collections. -/
theorem c1_counterexample :
    ((collectCodexUsageData
        [("a", [Entry.tokenCount (some 10) payC1]),
         ("b", [Entry.tokenCount (some 10) payC1])]).events.map
      createTokenEventSignature).count sigC1 = 2 := by
  decide
